import Mathlib

/-!
Verification development for the receipt_flow repository.

The embedding translates the Python sources under the repository's
src/ tree into Lean:

* numeric prices are modelled as exact rationals (`ℚ`); Python's IEEE
  floats are replaced by exact arithmetic, and non-finite float
  literals (inf/nan) are outside the model;
* Python run-time values that flow through dynamically typed
  dictionaries are modelled by the `PyVal` type;
* calendar dates are modelled as integer day numbers (the ISO rendering
  of a date is irrelevant to every claim, only the day offset matters);
* the two external AI adapters are parameters of the aggregator: the
  extraction adapter is an `Except`-value (its result, or a raised
  exception) and the lookup adapter is a function from item names to
  `Except`-valued lookup results, so that an unexpected exception at
  either adapter boundary can be modelled;
* pandas DataFrames are modelled as lists of rows of optional cells
  (`none` is a NaN cell).
-/

attribute [local semireducible] Rat.add Rat.mul Rat.inv Rat.sub Rat.ofScientific

/-- A dynamically typed Python value, as far as the repository's code
inspects one: `None`, booleans, integers, floats (exact rationals),
strings, lists, and JSON-style dictionaries (association lists, first
binding wins, insertion order preserved). -/
inductive PyVal where
  | none
  | bool (b : Bool)
  | int (n : Int)
  | float (q : ℚ)
  | str (s : String)
  | list (xs : List PyVal)
  | dict (kvs : List (String × PyVal))

/-- Numeric value of a decimal digit character. -/
def digitVal (c : Char) : Nat := c.toNat - 48

/-- The ASCII whitespace stripped by Python's `str.strip` (the unicode
whitespace beyond these four characters never occurs in the sources). -/
def isPySpace (c : Char) : Bool :=
  c == ' ' || c == '\t' || c == '\n' || c == '\r'

/-- `str.strip()`: drop whitespace from both ends. -/
def pyStrip (cs : List Char) : List Char :=
  ((cs.dropWhile isPySpace).reverse.dropWhile isPySpace).reverse

/-- Continuation of a digit run in a Python numeric literal: digits with
single underscores allowed between digits, accumulating the value `v`
and the count `n` of digits seen so far. -/
def udigitsAux (v n : Nat) : List Char → Option (Nat × Nat)
  | [] => some (v, n)
  | c :: rest =>
    if c.isDigit then udigitsAux (10 * v + digitVal c) (n + 1) rest
    else if c == '_' then
      match rest with
      | [] => Option.none
      | d :: rest2 =>
        if d.isDigit then udigitsAux (10 * v + digitVal d) (n + 1) rest2
        else Option.none
    else Option.none

/-- A nonempty digit run of a Python numeric literal (underscores only
between digits); returns the value and the number of digits. -/
def udigits : List Char → Option (Nat × Nat)
  | [] => Option.none
  | c :: rest => if c.isDigit then udigitsAux (digitVal c) 1 rest else Option.none

/-- Consume an optional leading sign; returns (negative?, rest). -/
def splitSign : List Char → Bool × List Char
  | [] => (false, [])
  | c :: rest =>
    if c == '-' then (true, rest)
    else if c == '+' then (false, rest)
    else (false, c :: rest)

/-- Split a character list at the first character satisfying `p`:
the prefix before it, and (when found) the remainder after it. -/
def splitAtFirst (p : Char → Bool) : List Char → List Char × Option (List Char)
  | [] => ([], Option.none)
  | c :: rest =>
    if p c then ([], some rest)
    else
      let r := splitAtFirst p rest
      (c :: r.1, r.2)

/-- Python's `float(string)` on an already-stripped character list,
restricted to finite decimal literals: optional sign, then
`digits`, `digits.`, `digits.digits` or `.digits` (underscores between
digits allowed), with an optional `e`/`E` exponent.  The non-finite
literals `inf`/`nan`, which denote no rational, are not modelled; any
other input that CPython rejects yields `none` here too. -/
def pyFloatCore (cs : List Char) : Option ℚ :=
  let sg := splitSign cs
  let me := splitAtFirst (fun c => c == 'e' || c == 'E') sg.2
  let ifp := splitAtFirst (fun c => c == '.') me.1
  let mval : Option ℚ :=
    match ifp.2 with
    | Option.none => (udigits ifp.1).map (fun p => (p.1 : ℚ))
    | some f =>
      if ifp.1.isEmpty then
        (udigits f).map (fun p => (p.1 : ℚ) / 10 ^ p.2)
      else if f.isEmpty then
        (udigits ifp.1).map (fun p => (p.1 : ℚ))
      else
        match udigits ifp.1, udigits f with
        | some a, some b => some ((a.1 : ℚ) + (b.1 : ℚ) / 10 ^ b.2)
        | _, _ => Option.none
  match mval with
  | Option.none => Option.none
  | some m =>
    let v := if sg.1 then -m else m
    match me.2 with
    | Option.none => some v
    | some e =>
      let esg := splitSign e
      (udigits esg.2).map (fun p => if esg.1 then v / 10 ^ p.1 else v * 10 ^ p.1)

/-- `parse_price` from src/core/utils.py: a non-string returns `None`;
for a string, remove every `$`, then every `,`, strip whitespace, and
parse the remainder with `float(...)`; a parse failure returns `None`
instead of raising. -/
def parse_price (v : PyVal) : Option ℚ :=
  match v with
  | PyVal.str s =>
      pyFloatCore (pyStrip ((s.data.filter (fun c => c != '$')).filter (fun c => c != ',')))
  | _ => Option.none

/-- Value denoted by a digit run (no underscores). -/
def digitsVal (cs : List Char) : Nat :=
  cs.foldl (fun a c => 10 * a + digitVal c) 0

/-- Drop one leading `$` if present. -/
def dropDollar : List Char → List Char
  | [] => []
  | c :: rest => if c == '$' then rest else c :: rest

/-- Whole-string match of `\d+(\.\d+)?`. -/
def priceRegexCore (cs : List Char) : Bool :=
  match splitAtFirst (fun c => c == '.') cs with
  | (i, Option.none) => !i.isEmpty && i.all Char.isDigit
  | (i, some f) => !i.isEmpty && i.all Char.isDigit && !f.isEmpty && f.all Char.isDigit

/-- Spec-side predicate for claim C4: the string matches
`\$?\d+(\.\d+)?` once thousands commas are removed. -/
def matchesPriceRegex (s : String) : Bool :=
  priceRegexCore (dropDollar (s.data.filter (fun c => c != ',')))

/-- Spec-side value for claim C4: the numeric value denoted by the
digits of a string matching `\$?\d+(\.\d+)?` with commas removed. -/
def regexValue (s : String) : ℚ :=
  match splitAtFirst (fun c => c == '.') (dropDollar (s.data.filter (fun c => c != ','))) with
  | (i, Option.none) => (digitsVal i : ℚ)
  | (i, some f) => (digitsVal i : ℚ) + (digitsVal f : ℚ) / 10 ^ f.length

theorem digit_ne (c x : Char) (h : c.isDigit = true) (hx : x.isDigit = false) :
    (c == x) = false := by
  refine beq_eq_false_iff_ne.mpr ?_
  rintro rfl
  simp [h] at hx

theorem digit_not_space (c : Char) (h : c.isDigit = true) : isPySpace c = false := by
  unfold isPySpace
  rw [digit_ne c ' ' h (by decide), digit_ne c '\t' h (by decide),
    digit_ne c '\n' h (by decide), digit_ne c '\r' h (by decide)]
  rfl

theorem splitAtFirst_all_false (p : Char → Bool) (cs : List Char)
    (h : ∀ c ∈ cs, p c = false) : splitAtFirst p cs = (cs, Option.none) := by
  induction cs with
  | nil => rfl
  | cons c rest ih =>
    have hc : p c = false := h c (List.mem_cons_self _ _)
    simp [splitAtFirst, hc, ih (fun x hx => h x (List.mem_cons_of_mem _ hx))]

theorem splitAtFirst_none_inv (p : Char → Bool) :
    ∀ cs a, splitAtFirst p cs = (a, Option.none) → cs = a ∧ ∀ c ∈ cs, p c = false := by
  intro cs
  induction cs with
  | nil =>
    intro a h
    simp [splitAtFirst] at h
    subst h
    exact ⟨rfl, by simp⟩
  | cons c rest ih =>
    intro a h
    cases hpc : p c with
    | true => simp [splitAtFirst, hpc] at h
    | false =>
      cases hsp : splitAtFirst p rest with
      | mk a2 o =>
        simp [splitAtFirst, hpc, hsp] at h
        obtain ⟨h1, h2⟩ := h
        subst h2
        obtain ⟨hra, hall⟩ := ih a2 hsp
        subst hra
        refine ⟨h1, ?_⟩
        intro x hx
        rcases List.mem_cons.mp hx with rfl | hx'
        · exact hpc
        · exact hall x hx'

theorem splitAtFirst_some_inv (p : Char → Bool) :
    ∀ cs a b, splitAtFirst p cs = (a, some b) →
      ∃ c0, cs = a ++ c0 :: b ∧ p c0 = true ∧ ∀ c ∈ a, p c = false := by
  intro cs
  induction cs with
  | nil => intro a b h; simp [splitAtFirst] at h
  | cons c rest ih =>
    intro a b h
    cases hpc : p c with
    | true =>
      simp [splitAtFirst, hpc] at h
      obtain ⟨h1, h2⟩ := h
      subst h1
      subst h2
      exact ⟨c, by simp, hpc, by simp⟩
    | false =>
      cases hsp : splitAtFirst p rest with
      | mk a2 o =>
        simp [splitAtFirst, hpc, hsp] at h
        obtain ⟨h1, h2⟩ := h
        subst h2
        obtain ⟨c0, hrest, hc0, hall⟩ := ih a2 b hsp
        refine ⟨c0, ?_, hc0, ?_⟩
        · rw [← h1, hrest]
          simp
        · intro x hx
          rw [← h1] at hx
          rcases List.mem_cons.mp hx with rfl | hx'
          · exact hpc
          · exact hall x hx'

theorem udigitsAux_all_digits :
    ∀ cs : List Char, (∀ c ∈ cs, c.isDigit = true) → ∀ v n,
      udigitsAux v n cs = some (cs.foldl (fun a c => 10 * a + digitVal c) v, n + cs.length) := by
  intro cs
  induction cs with
  | nil => intro _ v n; simp [udigitsAux]
  | cons c rest ih =>
    intro h v n
    have hc := h c (List.mem_cons_self _ _)
    rw [udigitsAux.eq_def]
    simp [hc, ih (fun x hx => h x (List.mem_cons_of_mem _ hx)), List.foldl_cons]
    omega

theorem udigits_all_digits (cs : List Char) (h0 : cs ≠ [])
    (h : ∀ c ∈ cs, c.isDigit = true) : udigits cs = some (digitsVal cs, cs.length) := by
  cases cs with
  | nil => exact absurd rfl h0
  | cons c rest =>
    have hc := h c (List.mem_cons_self _ _)
    rw [udigits.eq_def]
    simp [hc, udigitsAux_all_digits rest (fun x hx => h x (List.mem_cons_of_mem _ hx)),
      digitsVal, List.foldl_cons]
    omega

theorem dropWhile_all_false (p : Char → Bool) (l : List Char)
    (h : ∀ c ∈ l, p c = false) : l.dropWhile p = l := by
  cases l with
  | nil => rfl
  | cons c rest => simp [List.dropWhile_cons, h c (List.mem_cons_self _ _)]

theorem pyStrip_all (cs : List Char) (h : ∀ c ∈ cs, isPySpace c = false) :
    pyStrip cs = cs := by
  unfold pyStrip
  rw [dropWhile_all_false _ _ h,
    dropWhile_all_false _ _ (fun c hc => h c (List.mem_reverse.mp hc)),
    List.reverse_reverse]

theorem priceRegexCore_chars (cs : List Char) (h : priceRegexCore cs = true) :
    cs ≠ [] ∧ ∀ c ∈ cs, c.isDigit = true ∨ c = '.' := by
  unfold priceRegexCore at h
  cases hsp : splitAtFirst (fun c => c == '.') cs with
  | mk i fo =>
    rw [hsp] at h
    cases fo with
    | none =>
      simp [List.all_eq_true] at h
      obtain ⟨hne, hall⟩ := h
      obtain ⟨hcs, -⟩ := splitAtFirst_none_inv _ cs i hsp
      subst hcs
      exact ⟨hne, fun c hc => Or.inl (hall c hc)⟩
    | some f =>
      simp [List.all_eq_true] at h
      obtain ⟨⟨⟨hine, hiall⟩, hfne⟩, hfall⟩ := h
      obtain ⟨c0, hcs, hc0, -⟩ := splitAtFirst_some_inv _ cs i f hsp
      have hc0' : c0 = '.' := by simpa using hc0
      subst hcs
      subst hc0'
      refine ⟨by simp, ?_⟩
      intro c hc
      rcases List.mem_append.mp hc with hci | hcf
      · exact Or.inl (hiall c hci)
      · rcases List.mem_cons.mp hcf with rfl | hcf'
        · exact Or.inr rfl
        · exact Or.inl (hfall c hcf')

theorem splitAtFirst_append (p : Char → Bool) (a b : List Char) (c0 : Char)
    (ha : ∀ c ∈ a, p c = false) (hc : p c0 = true) :
    splitAtFirst p (a ++ c0 :: b) = (a, some b) := by
  induction a with
  | nil => simp [splitAtFirst, hc]
  | cons c rest ih =>
    have hcc := ha c (List.mem_cons_self _ _)
    simp [splitAtFirst, hcc, ih (fun x hx => ha x (List.mem_cons_of_mem _ hx))]

theorem dropDollar_cases (l : List Char) :
    dropDollar l = l ∨ ∃ t, l = '$' :: t ∧ dropDollar l = t := by
  cases l with
  | nil => exact Or.inl rfl
  | cons c t =>
    cases hc : c == '$' with
    | true =>
      have : c = '$' := by simpa using hc
      subst this
      exact Or.inr ⟨t, rfl, by simp [dropDollar]⟩
    | false => exact Or.inl (by simp [dropDollar, hc])

theorem filter_dollar_dropDollar (l : List Char)
    (hl : ∀ c ∈ dropDollar l, (c != '$') = true) :
    l.filter (fun c => c != '$') = dropDollar l := by
  rcases dropDollar_cases l with hEq | ⟨t, rfl, hEq⟩
  · rw [hEq] at hl
    rw [List.filter_eq_self.mpr hl, hEq]
  · rw [hEq] at hl
    rw [hEq]
    simp [List.filter_cons]
    intro a ha
    simpa using hl a ha

theorem splitSign_digitdot (cs : List Char) (hne : cs ≠ [])
    (h : ∀ c ∈ cs, c.isDigit = true ∨ c = '.') : splitSign cs = (false, cs) := by
  cases cs with
  | nil => exact absurd rfl hne
  | cons c rest =>
    have hc := h c (List.mem_cons_self _ _)
    have h1 : (c == '-') = false := by
      rcases hc with hd | rfl
      · exact digit_ne c _ hd (by decide)
      · decide
    have h2 : (c == '+') = false := by
      rcases hc with hd | rfl
      · exact digit_ne c _ hd (by decide)
      · decide
    simp [splitSign, h1, h2]

theorem expChar_false (cs : List Char) (h : ∀ c ∈ cs, c.isDigit = true ∨ c = '.') :
    ∀ c ∈ cs, (c == 'e' || c == 'E') = false := by
  intro c hc
  rcases h c hc with hd | rfl
  · rw [digit_ne c 'e' hd (by decide), digit_ne c 'E' hd (by decide)]
    rfl
  · decide

theorem isEmpty_false_of_ne (l : List Char) (h : l ≠ []) : l.isEmpty = false := by
  cases l with
  | nil => exact absurd rfl h
  | cons a t => rfl

theorem priceRegexCore_split_none (cs i : List Char)
    (hsp : splitAtFirst (fun c => c == '.') cs = (i, Option.none)) :
    priceRegexCore cs = (!i.isEmpty && i.all Char.isDigit) := by
  unfold priceRegexCore
  rw [hsp]

theorem priceRegexCore_split_some (cs i f : List Char)
    (hsp : splitAtFirst (fun c => c == '.') cs = (i, some f)) :
    priceRegexCore cs = (!i.isEmpty && i.all Char.isDigit && !f.isEmpty && f.all Char.isDigit) := by
  unfold priceRegexCore
  rw [hsp]

theorem regexValue_split_none (s : String) (i : List Char)
    (hsp : splitAtFirst (fun c => c == '.')
      (dropDollar (s.data.filter (fun c => c != ','))) = (i, Option.none)) :
    regexValue s = (digitsVal i : ℚ) := by
  unfold regexValue
  rw [hsp]

theorem regexValue_split_some (s : String) (i f : List Char)
    (hsp : splitAtFirst (fun c => c == '.')
      (dropDollar (s.data.filter (fun c => c != ','))) = (i, some f)) :
    regexValue s = (digitsVal i : ℚ) + (digitsVal f : ℚ) / 10 ^ f.length := by
  unfold regexValue
  rw [hsp]

/-- Claim C4 (amended, positive part): every string matching
`\$?\d+(\.\d+)?` (optionally containing thousands commas) is parsed by
`parse_price` to exactly the rational value denoted by its digits. -/
theorem c4_price_regex_exact (s : String) (h : matchesPriceRegex s = true) :
    parse_price (PyVal.str s) = some (regexValue s) := by
  unfold matchesPriceRegex at h
  obtain ⟨hDne, hmem⟩ := priceRegexCore_chars _ h
  have hnodollar : ∀ c ∈ dropDollar (s.data.filter (fun c => c != ',')), (c != '$') = true := by
    intro c hc
    rcases hmem c hc with hd | rfl
    · simp [bne]
      intro hq
      rw [hq] at hd
      exact absurd hd (by decide)
    · decide
  have hnospace : ∀ c ∈ dropDollar (s.data.filter (fun c => c != ',')), isPySpace c = false := by
    intro c hc
    rcases hmem c hc with hd | rfl
    · exact digit_not_space c hd
    · decide
  have hswap : (s.data.filter (fun c => c != '$')).filter (fun c => c != ',')
      = (s.data.filter (fun c => c != ',')).filter (fun c => c != '$') :=
    List.filter_comm _ _ _
  show pyFloatCore (pyStrip ((s.data.filter (fun c => c != '$')).filter (fun c => c != ',')))
      = some (regexValue s)
  rw [hswap, filter_dollar_dropDollar _ hnodollar, pyStrip_all _ hnospace]
  cases hsp : splitAtFirst (fun c => c == '.') (dropDollar (s.data.filter (fun c => c != ','))) with
  | mk i fo =>
    cases fo with
    | none =>
      rw [priceRegexCore_split_none _ _ hsp] at h
      simp [List.all_eq_true] at h
      obtain ⟨hine, hiall⟩ := h
      obtain ⟨hDi, -⟩ := splitAtFirst_none_inv _ _ _ hsp
      rw [regexValue_split_none _ _ hsp]
      rw [hDi] at hmem hsp ⊢
      have hsign := splitSign_digitdot i hine hmem
      have hE := splitAtFirst_all_false _ i (expChar_false i hmem)
      have hud := udigits_all_digits i hine hiall
      simp [pyFloatCore, hsign, hE, hsp, hud]
    | some f =>
      rw [priceRegexCore_split_some _ _ _ hsp] at h
      simp [List.all_eq_true] at h
      obtain ⟨⟨⟨hine, hiall⟩, hfne⟩, hfall⟩ := h
      obtain ⟨c0, hD, hc0, hiNoDot⟩ := splitAtFirst_some_inv _ _ _ _ hsp
      have hc0eq : c0 = '.' := by simpa using hc0
      subst hc0eq
      rw [regexValue_split_some _ _ _ hsp]
      rw [hD] at hmem ⊢
      have hne2 : i ++ '.' :: f ≠ [] := by simp
      have hsign := splitSign_digitdot (i ++ '.' :: f) hne2 hmem
      have hE := splitAtFirst_all_false _ (i ++ '.' :: f) (expChar_false _ hmem)
      have hdot := splitAtFirst_append (fun c => c == '.') i f '.' hiNoDot (by decide)
      have hudi := udigits_all_digits i hine hiall
      have hudf := udigits_all_digits f hfne hfall
      simp [pyFloatCore, hsign, hE, hdot, hudi, hudf, hine, hfne,
        isEmpty_false_of_ne i hine, isEmpty_false_of_ne f hfne]

/-- Counterexample to claim C4 as frozen: the string "-5" does not match
`\$?\d+(\.\d+)?`, so the claim requires `parse_price` to return null on
it, yet the code parses it to -5 (Python's `float` also accepts signs,
exponents and underscores, not just the spec's regex). -/
theorem c4_counterexample :
    matchesPriceRegex "-5" = false ∧ parse_price (PyVal.str "-5") = some (-5) := by
  constructor
  · rfl
  · decide

/-- Witness for the amended claim C4 at the concrete input "$1,234.50". -/
theorem c4_witness :
    matchesPriceRegex "$1,234.50" = true ∧
      parse_price (PyVal.str "$1,234.50") = some (2469 / 2) := by
  refine ⟨by rfl, ?_⟩
  rw [c4_price_regex_exact "$1,234.50" (by rfl)]
  decide

/-- Claim C10: `parse_price` returns null on every non-string input,
including already-numeric prices, without raising (the embedding is a
total function, so "never raises" holds by construction). -/
theorem c10_parse_price_nonstring (v : PyVal) (h : ∀ s, v ≠ PyVal.str s) :
    parse_price v = Option.none := by
  cases v with
  | str s => exact absurd rfl (h s)
  | none => rfl
  | bool b => rfl
  | int n => rfl
  | float q => rfl
  | list xs => rfl
  | dict kvs => rfl

/-- Witness for claim C10: an already-numeric price and `None` both map
to null. -/
theorem c10_witness :
    parse_price (PyVal.int 4) = Option.none ∧
      parse_price (PyVal.float 4) = Option.none ∧
      parse_price PyVal.none = Option.none :=
  ⟨c10_parse_price_nonstring (PyVal.int 4) (fun _ h => PyVal.noConfusion h),
   c10_parse_price_nonstring (PyVal.float 4) (fun _ h => PyVal.noConfusion h),
   c10_parse_price_nonstring PyVal.none (fun _ h => PyVal.noConfusion h)⟩

/-- Python `int("...")`: strip whitespace, optional sign, then a digit
run (underscores between digits allowed); no dot and no exponent. -/
def pyIntStr (s : String) : Option Int :=
  let sg := splitSign (pyStrip s.data)
  (udigits sg.2).map (fun p => if sg.1 then -(p.1 : Int) else (p.1 : Int))

/-- Python `int(x)` on a dynamic value: ints and bools convert, floats
truncate toward zero, strings parse as integer literals; everything
else (`None`, lists, dicts) raises `TypeError`, modelled as `none`
(the caller catches `(ValueError, TypeError)`). -/
def pyInt : PyVal → Option Int
  | PyVal.int n => some n
  | PyVal.bool b => some (if b then 1 else 0)
  | PyVal.float q => some (if q < 0 then -Int.floor (-q) else Int.floor q)
  | PyVal.str s => pyIntStr s
  | _ => Option.none

/-- Python dict lookup `d.get(k)` on an association list (first binding
wins, as dict keys are unique). -/
def getKey : List (String × PyVal) → String → Option PyVal
  | [], _ => Option.none
  | (k0, v) :: rest, k => if k0 = k then some v else getKey rest k

/-- Python dict assignment `d[k] = v`: update the binding in place if
the key exists (keeping its position), otherwise append it at the end
(dict insertion order). -/
def setKey : List (String × PyVal) → String → PyVal → List (String × PyVal)
  | [], k, v => [(k, v)]
  | (k0, v0) :: rest, k, v =>
    if k0 = k then (k0, v) :: rest else (k0, v0) :: setKey rest k v

/-- The validation loop of `call_gemini_vision_api`
(src/services/gemini_client.py, lines 101-118): entries that are not
dicts, or that lack any of the keys `item`, `days_until_expiry`,
`price_paid`, are dropped; for kept entries, `predicted_expiry` is set
to `today + int(days_until_expiry)`, falling back to `today + 7` when
the conversion to `int` raises.  Dates are day numbers. -/
def validateItems (today : Int) : List PyVal → List PyVal
  | [] => []
  | PyVal.dict kvs :: rest =>
    if (getKey kvs "item").isSome && (getKey kvs "days_until_expiry").isSome
        && (getKey kvs "price_paid").isSome then
      let expiry : Int :=
        match (getKey kvs "days_until_expiry").bind pyInt with
        | some d => today + d
        | Option.none => today + 7
      PyVal.dict (setKey kvs "predicted_expiry" (PyVal.int expiry)) :: validateItems today rest
    else
      validateItems today rest
  | _ :: rest => validateItems today rest

/-- The post-parse shaping of `call_gemini_vision_api`: take the
`items` and `total` keys of the decoded JSON object (defaults `[]` and
"N/A"), and validate the items; a non-list `items` value yields no
items (only a warning is printed). -/
def geminiValidate (today : Int) (data : List (String × PyVal)) : List PyVal × PyVal :=
  let items := (getKey data "items").getD (PyVal.list [])
  let total := (getKey data "total").getD (PyVal.str "N/A")
  match items with
  | PyVal.list xs => (validateItems today xs, total)
  | _ => ([], total)

theorem getKey_setKey_ne (kvs : List (String × PyVal)) (k k2 : String) (v : PyVal)
    (h : k2 ≠ k) : getKey (setKey kvs k v) k2 = getKey kvs k2 := by
  induction kvs with
  | nil => simp [setKey, getKey, Ne.symm h]
  | cons kv rest ih =>
    cases kv with
    | mk k0 v0 =>
      by_cases hk : k0 = k
      · subst hk
        simp [setKey, getKey, Ne.symm h]
      · by_cases hk2 : k0 = k2
        · subst hk2
          simp [setKey, getKey, h, hk]
        · simp [setKey, getKey, hk, hk2, ih]

/-- Claim C6 (amended): when an extracted item has all three required
keys but its `days_until_expiry` value is present and is not a valid
integer, the adapter keeps the item, assigns it a predicted expiry of
7 days from the current date, and degrades only that one field — every
other key of the item is unchanged.  (An item with `days_until_expiry`
missing entirely is dropped, not defaulted; see the counterexample.) -/
theorem c6_invalid_days_defaults (today : Int) (kvs : List (String × PyVal))
    (rest : List PyVal)
    (h1 : (getKey kvs "item").isSome = true)
    (h2 : (getKey kvs "days_until_expiry").isSome = true)
    (h3 : (getKey kvs "price_paid").isSome = true)
    (hbad : (getKey kvs "days_until_expiry").bind pyInt = Option.none) :
    validateItems today (PyVal.dict kvs :: rest)
      = PyVal.dict (setKey kvs "predicted_expiry" (PyVal.int (today + 7)))
        :: validateItems today rest
    ∧ ∀ k, k ≠ "predicted_expiry" →
        getKey (setKey kvs "predicted_expiry" (PyVal.int (today + 7))) k = getKey kvs k := by
  constructor
  · rw [validateItems, if_pos (by rw [h1, h2, h3]; rfl), hbad]
  · intro k hk
    exact getKey_setKey_ne kvs _ k _ hk

/-- Counterexample to claim C6 as frozen: an item whose
`days_until_expiry` key is missing (but which has `item` and
`price_paid`) is dropped by the validation loop, not returned with a
7-day default expiry. -/
theorem c6_counterexample :
    validateItems 0 [PyVal.dict [("item", PyVal.str "Milk"), ("price_paid", PyVal.str "$1.00")]]
      = [] := by
  rfl

/-- Witness for the amended claim C6: a present but non-integer
`days_until_expiry` value "soon" defaults to today + 7 and leaves the
other keys intact. -/
theorem c6_witness :
    validateItems 10 [PyVal.dict [("item", PyVal.str "Milk"),
        ("days_until_expiry", PyVal.str "soon"), ("price_paid", PyVal.str "$2.00")]]
      = [PyVal.dict [("item", PyVal.str "Milk"), ("days_until_expiry", PyVal.str "soon"),
          ("price_paid", PyVal.str "$2.00"), ("predicted_expiry", PyVal.int 17)]]
    ∧ getKey (setKey [("item", PyVal.str "Milk"), ("days_until_expiry", PyVal.str "soon"),
          ("price_paid", PyVal.str "$2.00")] "predicted_expiry" (PyVal.int 17)) "item"
        = some (PyVal.str "Milk") := by
  have h := c6_invalid_days_defaults 10
    [("item", PyVal.str "Milk"), ("days_until_expiry", PyVal.str "soon"),
      ("price_paid", PyVal.str "$2.00")] [] (by rfl) (by rfl) (by rfl) (by rfl)
  refine ⟨?_, ?_⟩
  · rw [h.1]
    rfl
  · exact h.2 "item" (by decide)

/-- Status of an online price lookup (perplexity_client returns one of
these four strings in its `status` field). -/
inductive LStatus where
  | found
  | not_found
  | varies
  | error
deriving DecidableEq

/-- Result dictionary of `get_online_grocery_price_perplexity`: a
`status`, an optional numeric `price`, a `details` text and an optional
`url`.  `price`/`details`/`url` are read with `.get`, so they are
optional here; `status` is always present (read with `[...]`). -/
structure LookupResult where
  status : LStatus
  price : Option ℚ := Option.none
  details : Option String := Option.none
  url : Option String := Option.none

/-- An inventory item dictionary.  Each field models one dict key; a
`none` means the key is absent.  `online_price` conflates an absent key
with a stored Python `None` — the code treats the two identically
(line 134 of logic.py tests both at once).  `is_assumed_price` is read
with `.get(..., False)`, so an absent key is the same as `false`. -/
structure ItemData where
  name : Option String := Option.none
  price_paid : Option PyVal := Option.none
  predicted_expiry : Option String := Option.none
  receipt_timestamp : Option String := Option.none
  online_price : Option ℚ := Option.none
  is_assumed_price : Bool := false
  online_details : Option String := Option.none
  url : Option String := Option.none

/-- A `current_receipt_results` entry (logic.py lines 105-111). -/
structure ResultRow where
  item : String
  price_paid : PyVal
  online_details : String
  url : Option String
  receipt_timestamp : String

/-- The four running accumulators of `process_receipt`. -/
structure Totals where
  paid : ℚ
  online : ℚ
  foundCount : Nat
  assumedCount : Nat

def Totals.zero : Totals := ⟨0, 0, 0, 0⟩

/-- Renders a rational with two decimals, approximating Python's
`f"{x:.2f}"` (exact round-half-up instead of binary round-half-even;
no claim depends on the rendered digits). -/
def formatMoney (q : ℚ) : String :=
  let n : Int := ⌊q * 100 + 1 / 2⌋
  let m := n.natAbs
  let frac := m % 100
  (if n < 0 then "-" else "") ++ toString (m / 100) ++ "." ++
    (if frac < 10 then "0" ++ toString frac else toString frac)

/-- Python `str(x)` as far as the display code needs it; the
list/dict/float renderings are approximations that no claim inspects
(receipt price strings are always `PyVal.str`). -/
def pyStr : PyVal → String
  | PyVal.str s => s
  | PyVal.int n => toString n
  | PyVal.bool b => if b then "True" else "False"
  | PyVal.none => "None"
  | PyVal.float q => formatMoney q
  | PyVal.list _ => "[...]"
  | PyVal.dict _ => "\x7b...\x7d"

/-- Per-item deltas of one iteration of the lookup loop. -/
structure ItemOutcome where
  item : ItemData
  paidAdd : ℚ
  onlineAdd : ℚ
  foundAdd : Nat
  assumedAdd : Nat
  row : ResultRow

/-- One iteration of the per-item loop of `process_receipt`
(logic.py lines 73-111): parse the paid price, fold the lookup result
by the decision table, store the lookup outcome on the item, and emit
the display row.  `info` is the value returned by the lookup adapter
for this item. -/
def foldOne (ts : String) (info : LookupResult) (it : ItemData) : ItemOutcome :=
  let item_name := it.name.getD "Unknown Item"
  let price_paid_pv := it.price_paid.getD (PyVal.str "N/A")
  let price_paid_float := parse_price price_paid_pv
  let details0 := info.details.getD "Error fetching price"
  if info.status = LStatus.found ∧ info.price ≠ Option.none then
    { item := { it with
        online_price := info.price
        is_assumed_price := false
        online_details := some details0
        url := info.url }
      paidAdd := price_paid_float.getD 0
      onlineAdd := info.price.getD 0
      foundAdd := 1
      assumedAdd := 0
      row := ⟨item_name, price_paid_pv, details0, info.url, ts⟩ }
  else
    match price_paid_float with
    | some q =>
      let d := "Assumed same as receipt ($" ++ formatMoney q ++ ")"
      { item := { it with
          online_price := some q
          is_assumed_price := true
          online_details := some d
          url := info.url }
        paidAdd := price_paid_float.getD 0
        onlineAdd := q
        foundAdd := 0
        assumedAdd := 1
        row := ⟨item_name, price_paid_pv, d, info.url, ts⟩ }
    | Option.none =>
      { item := { it with
          online_price := Option.none
          is_assumed_price := false
          online_details := some details0
          url := info.url }
        paidAdd := 0
        onlineAdd := 0
        foundAdd := 0
        assumedAdd := 0
        row := ⟨item_name, price_paid_pv, details0, info.url, ts⟩ }

/-- Tag every extracted item with the batch timestamp (logic.py
lines 53-54). -/
def tagBatch (ts : String) (items : List ItemData) : List ItemData :=
  items.map (fun it => { it with receipt_timestamp := some ts })

/-- The per-item loop over the current receipt's items: items are
processed in order, each with one call to the lookup adapter; an
exception raised by the adapter aborts the whole pass, as in the
Python loop inside the `try`.  The recursion adds each item's deltas on
the left, so totals equal the Python left-to-right accumulation by
commutativity, and item and row order are preserved. -/
def runItems (lookup : String → Except String LookupResult) (ts : String) :
    List ItemData → Except String (List ItemData × Totals × List ResultRow)
  | [] => Except.ok ([], Totals.zero, [])
  | it :: rest =>
    match lookup (it.name.getD "Unknown Item") with
    | Except.error e => Except.error e
    | Except.ok info =>
      match runItems lookup ts rest with
      | Except.error e => Except.error e
      | Except.ok (rest2, t, rs) =>
        let o := foldOne ts info it
        Except.ok (o.item :: rest2,
          ⟨o.paidAdd + t.paid, o.onlineAdd + t.online,
            o.foundAdd + t.foundCount, o.assumedAdd + t.assumedCount⟩,
          o.row :: rs)

/-- Per-item deltas of one iteration of the cumulative loop. -/
structure ReplayAdd where
  paidAdd : ℚ
  onlineAdd : ℚ
  foundAdd : Nat
  assumedAdd : Nat
  row : ResultRow

/-- One iteration of the cumulative loop over prior-batch items
(logic.py lines 127-150): re-parse the stored paid price and re-derive
the online contribution from the stored `online_price` /
`is_assumed_price` fields — the lookup adapter is not consulted. -/
def replayOutcome (it : ItemData) : ReplayAdd :=
  let pv := it.price_paid.getD (PyVal.str "N/A")
  let paidF := parse_price pv
  let row : ResultRow := ⟨it.name.getD "Unknown", pv, it.online_details.getD "N/A",
    it.url, it.receipt_timestamp.getD ""⟩
  match it.online_price with
  | some p =>
    { paidAdd := paidF.getD 0
      onlineAdd := p
      foundAdd := if it.is_assumed_price then 0 else 1
      assumedAdd := if it.is_assumed_price then 1 else 0
      row := row }
  | Option.none =>
    match paidF with
    | some q =>
      { paidAdd := q, onlineAdd := q, foundAdd := 0, assumedAdd := 1, row := row }
    | Option.none =>
      { paidAdd := 0, onlineAdd := 0, foundAdd := 0, assumedAdd := 0, row := row }


/-- The cumulative loop, accumulator-style as in the source. -/
def cumulativeLoop : Totals → List ResultRow → List ItemData → Totals × List ResultRow
  | t, rs, [] => (t, rs)
  | t, rs, it :: rest =>
    let r := replayOutcome it
    cumulativeLoop ⟨t.paid + r.paidAdd, t.online + r.onlineAdd,
      t.foundCount + r.foundAdd, t.assumedCount + r.assumedAdd⟩ (rs ++ [r.row]) rest

/-- Cumulative aggregates (logic.py lines 113-150): start from the
current batch's totals and rows, and add every inventory item whose
batch timestamp differs from the current one.  (The `if
current_inventory_state:` guard is kept; the loop over an empty list
adds nothing either way.) -/
def allAggregates (ts : String) (cur : Totals) (curRows : List ResultRow)
    (inv : List ItemData) : Totals × List ResultRow :=
  if inv.isEmpty then (cur, curRows)
  else cumulativeLoop cur curRows
    (inv.filter (fun it => it.receipt_timestamp.getD "" != ts))

/-- Does `n` start the list `hay`? -/
def startsWithL : List Char → List Char → Bool
  | [], _ => true
  | _ :: _, [] => false
  | a :: as2, b :: bs => a == b && startsWithL as2 bs

/-- Does `n` occur contiguously inside `hay`?  (Python's `in` on
strings.) -/
def containsSubL (n : List Char) : List Char → Bool
  | [] => n.isEmpty
  | c :: rest => startsWithL n (c :: rest) || containsSubL n rest

/-- Python `needle in hay` for strings. -/
def containsSubB (needle hay : String) : Bool := containsSubL needle.data hay.data

/-- The three-way difference label of `format_comparison_summary`
(utils.py lines 26 and 29): strict sign comparison with zero as exact
tie. -/
def diffStatus (d : ℚ) : String :=
  if 0 < d then "cheaper online" else if d < 0 then "cheaper in store" else "same price"

/-- The colour chosen for a difference (green/red/black by strict
sign). -/
def diffColor (d : ℚ) : String :=
  if 0 < d then "green" else if d < 0 then "red" else "black"

/-- Opening of the summary: outer container, "Latest Receipt" header
and the receipt total line (utils.py lines 32-39; insignificant
whitespace of the HTML templates is elided throughout). -/
def latestHeaderHtml (cp : ℚ) : String :=
  "<div style=\"font-size: 0.9rem; line-height: 1.3;\">" ++
  "<div style=\"margin-bottom: 16px; padding-bottom: 12px; border-bottom: 1px solid #eee;\">" ++
  "<div style=\"font-weight: 600; font-size: 1rem; margin-bottom: 8px; color: var(--primary-color);\">Latest Receipt</div>" ++
  "<div style=\"margin-bottom: 6px; display: flex; justify-content: space-between;\">" ++
  "<span><b>Receipt Total:</b></span> <span>$" ++ formatMoney cp ++ "</span></div>"

/-- The "(includes N items assumed same price)" note. -/
def assumedNote (n : Nat) : String :=
  if 0 < n then
    "<span style=\"font-size: 0.7rem; color: #666;\"> (includes " ++ toString n ++
      " items assumed same price)</span>"
  else ""

/-- Online-total and difference lines for the current receipt
(utils.py lines 42-60). -/
def currentOnlineHtml (nItems : Nat) (cp co : ℚ) (cf ca : Nat) : String :=
  "<div style=\"margin-bottom: 6px; display: flex; justify-content: space-between;\">" ++
  "<span><b>Online Total:</b> <span style=\"color: #666; font-size: 0.8rem;\">(" ++
  toString (cf + ca) ++ "/" ++ toString nItems ++ " items)</span> " ++ assumedNote ca ++
  "</span><span>$" ++ formatMoney co ++ "</span></div>" ++
  "<div style=\"margin-bottom: 10px; display: flex; justify-content: space-between; border-top: 1px solid #eee; padding-top: 6px;\">" ++
  "<span><b>Difference:</b></span><span style=\"color: " ++ diffColor (cp - co) ++ "\">$" ++
  formatMoney |cp - co| ++ " " ++ diffStatus (cp - co) ++ "</span></div>"

/-- The "N/A (No items found)" online-total line. -/
def naOnlineHtml : String :=
  "<div style=\"margin-bottom: 10px;\"><span><b>Online Total:</b></span> <span>N/A (No items found)</span></div>"

/-- Inner lines of the cumulative block (utils.py lines 78-101). -/
def cumulativeInnerHtml (nAll : Nat) (ap ao : ℚ) (af aa : Nat) : String :=
  if 0 < af ∨ 0 < aa then
    "<div style=\"margin-bottom: 6px; display: flex; justify-content: space-between;\">" ++
    "<span><b>Online Total:</b> <span style=\"color: #666; font-size: 0.8rem;\">(" ++
    toString (af + aa) ++ "/" ++ toString nAll ++ " items)</span> " ++ assumedNote aa ++
    "</span><span>$" ++ formatMoney ao ++ "</span></div>" ++
    "<div style=\"margin-bottom: 10px; display: flex; justify-content: space-between; border-top: 1px solid #eee; padding-top: 6px;\">" ++
    "<span><b>Total Savings:</b></span><span style=\"color: " ++ diffColor (ap - ao) ++ "\">$" ++
    formatMoney |ap - ao| ++ " " ++ diffStatus (ap - ao) ++ "</span></div>"
  else naOnlineHtml

/-- The whole "All Receipts (Cumulative)" block (utils.py lines
69-102), including the `</div>` that closes the current-receipt
section before it. -/
def cumulativeSectionHtml (nAll : Nat) (ap ao : ℚ) (af aa : Nat) : String :=
  "</div><div style=\"margin-bottom: 16px; padding: 12px; background-color: var(--bg-light); border-radius: 8px;\">" ++
  ("<div style=\"font-weight: 600; font-size: 1rem; margin-bottom: 8px; color: var(--primary-color);\">" ++
    ("All Receipts (Cumulative)" ++
      ("</div><div style=\"margin-bottom: 6px; display: flex; justify-content: space-between;\"><span><b>Total Paid:</b></span><span>$" ++
       formatMoney ap ++ "</span></div>" ++ cumulativeInnerHtml nAll ap ao af aa ++ "</div>")))

/-- One row of the current-receipt item listing (utils.py lines
115-147): colour by sniffing the details text, link the name when a
URL is present. -/
def itemRowHtml (r : ResultRow) : String :=
  let statusColor : String :=
    if containsSubB "Not Found" r.online_details then "#999"
    else if containsSubB "Assumed same" r.online_details then "#666"
    else ""
  let itemCell : String :=
    match r.url with
    | some u =>
      "<div style=\"overflow: hidden; text-overflow: ellipsis; white-space: nowrap; max-width: 50%;\">" ++
      "<a href=\"" ++ u ++ "\" target=\"_blank\" style=\"color: var(--primary-color); text-decoration: none;\">" ++
      r.item ++ " <span style=\"font-size: 0.6rem;\">🔗</span></a></div>"
    | Option.none =>
      "<div style=\"overflow: hidden; text-overflow: ellipsis; white-space: nowrap; max-width: 50%;\">" ++
        r.item ++ "</div>"
  "<div style=\"margin: 4px 0; padding: 2px 0; display: flex; justify-content: space-between; border-bottom: 1px dotted #eee;\">" ++
  itemCell ++ "<div><span style=\"margin-right: 8px;\">" ++ pyStr r.price_paid ++
  "</span><span style=\"color: " ++ statusColor ++ "\">" ++ r.online_details ++ "</span></div></div>"

/-- The current-receipt item listing (utils.py lines 107-149),
rendered only when the list is nonempty. -/
def itemsSectionHtml (ci : List ResultRow) : String :=
  if ci.isEmpty then ""
  else
    "<div style=\"margin-top: 10px;\">" ++
    "<div style=\"font-weight: 600; font-size: 0.9rem; margin-bottom: 8px; color: var(--primary-color);\">Current Receipt Items (" ++
    toString ci.length ++ ")</div>" ++ String.join (ci.map itemRowHtml) ++ "</div>"

/-- `format_comparison_summary` from src/core/utils.py.  The
cumulative block is appended exactly when
`len(all_items) > len(current_items) or
abs(all_receipts_paid - current_receipt_paid) > 0.01`; otherwise only
the closing `</div>` is appended.  The `current_receipt_total_str`
parameter is accepted and never used, as in the source. -/
def format_comparison_summary (ci : List ResultRow) (ctotStr : String)
    (cp co : ℚ) (cf ca : Nat) (ai : List ResultRow) (ap ao : ℚ) (af aa : Nat) : String :=
  latestHeaderHtml cp ++
  (if 0 < cf ∨ 0 < ca then currentOnlineHtml ci.length cp co cf ca else naOnlineHtml) ++
  (if ci.length < ai.length ∨ (1 : ℚ) / 100 < |ap - cp| then
      cumulativeSectionHtml ai.length ap ao af aa
    else "</div>") ++
  itemsSectionHtml ci ++ "</div>"

/-- The summary as rendered when the cumulative condition fails: same
pieces, no cumulative block. -/
def formatNoCumulative (ci : List ResultRow) (cp co : ℚ) (cf ca : Nat) : String :=
  latestHeaderHtml cp ++
  (if 0 < cf ∨ 0 < ca then currentOnlineHtml ci.length cp co cf ca else naOnlineHtml) ++
  "</div>" ++ itemsSectionHtml ci ++ "</div>"

/-- A rendered table row: Item, Price Paid, Predicted Expiry Date; a
`none` cell is a pandas NaN. -/
abbrev TableRow := Option String × Option String × Option String

/-- The DataFrame build of `process_receipt` (logic.py lines 163-180):
a column exists when some item dict has the key; a whole missing
column is filled with a default ("Unknown Item" / "N/A"); an item
missing a key of an existing column shows NaN. -/
def processRender (inv : List ItemData) : List TableRow :=
  if inv.isEmpty then []
  else
    inv.map (fun it =>
      (if inv.any (fun x => x.name.isSome) then it.name else some "Unknown Item",
       if inv.any (fun x => x.price_paid.isSome) then it.price_paid.map pyStr else some "N/A",
       if inv.any (fun x => x.predicted_expiry.isSome) then it.predicted_expiry else some "N/A"))

/-- The DataFrame build of `prepare_for_next_receipt` (logic.py lines
218-234): the rename runs only when an `item` column exists; expected
columns that are then still missing are filled with "N/A". -/
def prepareRender (inv : List ItemData) : List TableRow :=
  if inv.isEmpty then []
  else
    if inv.any (fun x => x.name.isSome) then
      inv.map (fun it =>
        (it.name,
         if inv.any (fun x => x.price_paid.isSome) then it.price_paid.map pyStr else some "N/A",
         if inv.any (fun x => x.predicted_expiry.isSome) then it.predicted_expiry else some "N/A"))
    else
      inv.map (fun _ => (some "N/A", some "N/A", some "N/A"))

/-- `pd.DataFrame(items, columns=["Item", "Price Paid", "Predicted
Expiry Date"])` on dicts whose keys are the lowercase field names: the
requested columns match no key, so every cell is NaN (one blank row
per item).  Used on the zero-item and exception paths. -/
def errLikeRows (inv : List ItemData) : List TableRow :=
  inv.map (fun _ => (Option.none, Option.none, Option.none))

/-- The five outputs of `process_receipt`: table, total text, CSV file
(modelled as its rows; `None` when the table is empty), inventory
state, comparison summary. -/
structure ProcessOut where
  table : List TableRow
  total : String
  file : Option (List TableRow)
  state : List ItemData
  summary : String

/-- The body of `process_receipt`'s `try` block (logic.py lines
30-193).  `extract` is the outcome of the extraction-adapter call
(its items/total, or a raised exception); `lookup` maps an item name
to the lookup adapter's outcome.  An `Except.error` is an uncaught
exception propagating to the boundary. -/
def processBody (ts : String) (extract : Except String (List ItemData × String))
    (lookup : String → Except String LookupResult) (inv : List ItemData) :
    Except String ProcessOut :=
  match extract with
  | Except.error e => Except.error e
  | Except.ok (newItems, total) =>
    if newItems.isEmpty && containsSubB "Error:" total then
      Except.ok ⟨errLikeRows inv, total, Option.none, inv, ""⟩
    else if newItems.isEmpty then
      Except.ok ⟨errLikeRows inv, "No items found in receipt.", Option.none, inv, ""⟩
    else
      match runItems lookup ts (tagBatch ts newItems) with
      | Except.error e => Except.error e
      | Except.ok (items2, cur, curRows) =>
        let agg := allAggregates ts cur curRows inv
        let summary := format_comparison_summary curRows total cur.paid cur.online
          cur.foundCount cur.assumedCount agg.2 agg.1.paid agg.1.online
          agg.1.foundCount agg.1.assumedCount
        let state2 := inv ++ items2
        let rows := processRender state2
        Except.ok ⟨rows, total, if rows.isEmpty then Option.none else some rows, state2, summary⟩

/-- `process_receipt` from src/core/logic.py: reject a missing image
before touching anything; otherwise run the body and catch any
exception at the boundary, returning an error total and the inventory
as passed in (the `comparison_summary` local is still "" at every
possible raise point, so the except path returns ""). -/
def process_receipt (hasImage : Bool) (ts : String)
    (extract : Except String (List ItemData × String))
    (lookup : String → Except String LookupResult) (inv : List ItemData) : ProcessOut :=
  if !hasImage then
    ⟨[], "⚠️ Upload receipt first", Option.none, inv, ""⟩
  else
    match processBody ts extract lookup inv with
    | Except.ok o => o
    | Except.error e =>
      ⟨errLikeRows inv, "❌ An unexpected error occurred in processing: " ++ e,
        Option.none, inv, ""⟩

/-- The five outputs of `clear_inventory`. -/
structure ClearOut where
  state : List ItemData
  table : List TableRow
  file : Option (List TableRow)
  total : String
  comparison : String

/-- `clear_inventory` from src/core/logic.py: unconditionally empty
state, empty table, no file, "Cleared", empty comparison. -/
def clear_inventory : ClearOut := ⟨[], [], Option.none, "Cleared", ""⟩

/-- The six outputs of `prepare_for_next_receipt`. -/
structure PrepareOut where
  image : Option Unit
  state : List ItemData
  table : List TableRow
  total : String
  file : Option (List TableRow)
  comparison : String

/-- `prepare_for_next_receipt` from src/core/logic.py: clear the image
input, keep the inventory state, re-render its table, clear the total
and comparison displays; no adapter and no aggregation is involved. -/
def prepare_for_next_receipt (inv : List ItemData) : PrepareOut :=
  ⟨Option.none, inv, prepareRender inv, "", Option.none, ""⟩

/-- Claim C1: the decision table of the lookup-result folding.
`foldOne` is the loop body `process_receipt` runs for every extracted
item (logic.py lines 73-111): (a) a `found` lookup with a numeric
price contributes that price to the online total, counts as found and
is marked not-assumed; (b) any other outcome (`found` without a
numeric price, `varies`, `not_found`, `error`) with a parsable paid
price contributes the paid price, counts as assumed and is marked
assumed; (c) `varies`/`not_found`/`error` without a parsable paid
price contributes to neither total and neither count. -/
theorem c1_decision_table (ts : String) (info : LookupResult) (it : ItemData) :
    ((info.status = LStatus.found ∧ info.price ≠ Option.none) →
      ∀ p, info.price = some p →
        (foldOne ts info it).onlineAdd = p ∧ (foldOne ts info it).foundAdd = 1 ∧
        (foldOne ts info it).assumedAdd = 0 ∧
        (foldOne ts info it).item.is_assumed_price = false)
    ∧ (¬(info.status = LStatus.found ∧ info.price ≠ Option.none) →
      ∀ q, parse_price (it.price_paid.getD (PyVal.str "N/A")) = some q →
        (foldOne ts info it).onlineAdd = q ∧ (foldOne ts info it).assumedAdd = 1 ∧
        (foldOne ts info it).foundAdd = 0 ∧
        (foldOne ts info it).item.is_assumed_price = true)
    ∧ ((info.status = LStatus.varies ∨ info.status = LStatus.not_found ∨
          info.status = LStatus.error) →
      parse_price (it.price_paid.getD (PyVal.str "N/A")) = Option.none →
        (foldOne ts info it).onlineAdd = 0 ∧ (foldOne ts info it).paidAdd = 0 ∧
        (foldOne ts info it).foundAdd = 0 ∧ (foldOne ts info it).assumedAdd = 0) := by
  refine ⟨?_, ?_, ?_⟩
  · intro hc p hp
    simp [foldOne, hc, hp]
  · intro hc q hq
    simp [foldOne, hc, hq]
  · intro hst hq
    have hc : ¬(info.status = LStatus.found ∧ info.price ≠ Option.none) := by
      rcases hst with h | h | h <;> simp [h]
    simp [foldOne, hc, hq]

/-- Witness for claim C1: one concrete item through each row of the
decision table. -/
theorem c1_witness :
    ((foldOne "T" ⟨LStatus.found, some (7 / 2), some "$3.50 at Walmart", Option.none⟩
        { name := some "Milk", price_paid := some (PyVal.str "$4.00") }).onlineAdd = 7 / 2
      ∧ (foldOne "T" ⟨LStatus.found, some (7 / 2), some "$3.50 at Walmart", Option.none⟩
          { name := some "Milk", price_paid := some (PyVal.str "$4.00") }).foundAdd = 1
      ∧ (foldOne "T" ⟨LStatus.found, some (7 / 2), some "$3.50 at Walmart", Option.none⟩
          { name := some "Milk", price_paid := some (PyVal.str "$4.00") }).assumedAdd = 0
      ∧ (foldOne "T" ⟨LStatus.found, some (7 / 2), some "$3.50 at Walmart", Option.none⟩
          { name := some "Milk", price_paid := some (PyVal.str "$4.00") }).item.is_assumed_price
          = false)
    ∧ ((foldOne "T" ⟨LStatus.not_found, Option.none, some "Not Found via Online Retailers",
          Option.none⟩
        { name := some "Bread", price_paid := some (PyVal.str "$4.00") }).onlineAdd = 4
      ∧ (foldOne "T" ⟨LStatus.not_found, Option.none, some "Not Found via Online Retailers",
            Option.none⟩
          { name := some "Bread", price_paid := some (PyVal.str "$4.00") }).assumedAdd = 1
      ∧ (foldOne "T" ⟨LStatus.not_found, Option.none, some "Not Found via Online Retailers",
            Option.none⟩
          { name := some "Bread", price_paid := some (PyVal.str "$4.00") }).foundAdd = 0
      ∧ (foldOne "T" ⟨LStatus.not_found, Option.none, some "Not Found via Online Retailers",
            Option.none⟩
          { name := some "Bread", price_paid := some (PyVal.str "$4.00") }).item.is_assumed_price
          = true)
    ∧ ((foldOne "T" ⟨LStatus.not_found, Option.none, some "Not Found via Online Retailers",
          Option.none⟩
        { name := some "Egg", price_paid := some (PyVal.str "N/A") }).onlineAdd = 0
      ∧ (foldOne "T" ⟨LStatus.not_found, Option.none, some "Not Found via Online Retailers",
            Option.none⟩
          { name := some "Egg", price_paid := some (PyVal.str "N/A") }).paidAdd = 0
      ∧ (foldOne "T" ⟨LStatus.not_found, Option.none, some "Not Found via Online Retailers",
            Option.none⟩
          { name := some "Egg", price_paid := some (PyVal.str "N/A") }).foundAdd = 0
      ∧ (foldOne "T" ⟨LStatus.not_found, Option.none, some "Not Found via Online Retailers",
            Option.none⟩
          { name := some "Egg", price_paid := some (PyVal.str "N/A") }).assumedAdd = 0) := by
  refine ⟨?_, ?_, ?_⟩
  · exact (c1_decision_table "T" _ _).1 (by constructor <;> decide) (7 / 2) rfl
  · exact (c1_decision_table "T" _ _).2.1 (by decide) 4 (by decide)
  · exact (c1_decision_table "T" _ _).2.2 (Or.inr (Or.inl rfl)) (by decide)

/-- Claim C5: when extraction yields zero items and the total text
carries the "Error:" sentinel, `process_receipt` returns that text
verbatim as the total display and the inventory unchanged (logic.py
lines 44-46). -/
theorem c5_error_sentinel (ts : String) (lookup : String → Except String LookupResult)
    (inv : List ItemData) (total : String)
    (h : containsSubB "Error:" total = true) :
    process_receipt true ts (Except.ok ([], total)) lookup inv
      = ⟨errLikeRows inv, total, Option.none, inv, ""⟩ := by
  simp [process_receipt, processBody, h]

/-- Witness for claim C5: the spec's concrete scenario — empty
inventory, zero items, total text "Error: bad json". -/
theorem c5_witness :
    process_receipt true "T" (Except.ok ([], "Error: bad json"))
        (fun _ => Except.ok ⟨LStatus.error, Option.none, Option.none, Option.none⟩) []
      = ⟨[], "Error: bad json", Option.none, [], ""⟩ :=
  c5_error_sentinel "T" _ [] "Error: bad json" (by rfl)

/-- Claim C3: an unexpected exception raised anywhere inside the body
(at the extraction or lookup adapter boundary) is caught at the
Aggregator boundary; the total display becomes an error message, the
returned inventory is exactly the one passed in, and the summary is
the still-empty string (logic.py lines 195-204). -/
theorem c3_exception_boundary (ts : String)
    (extract : Except String (List ItemData × String))
    (lookup : String → Except String LookupResult) (inv : List ItemData) (e : String)
    (h : processBody ts extract lookup inv = Except.error e) :
    (process_receipt true ts extract lookup inv).state = inv
    ∧ (process_receipt true ts extract lookup inv).total
        = "❌ An unexpected error occurred in processing: " ++ e
    ∧ (process_receipt true ts extract lookup inv).summary = "" := by
  simp [process_receipt, h]

/-- Witness for claim C3: a raising extraction adapter. -/
theorem c3_witness :
    (process_receipt true "T" (Except.error "boom")
        (fun _ => Except.ok ⟨LStatus.error, Option.none, Option.none, Option.none⟩) []).state
        = ([] : List ItemData)
    ∧ (process_receipt true "T" (Except.error "boom")
        (fun _ => Except.ok ⟨LStatus.error, Option.none, Option.none, Option.none⟩) []).total
        = "❌ An unexpected error occurred in processing: boom" := by
  have h := c3_exception_boundary "T" (Except.error "boom")
    (fun _ => Except.ok ⟨LStatus.error, Option.none, Option.none, Option.none⟩) [] "boom" rfl
  exact ⟨h.1, h.2.1⟩

/-- Claim C9: `prepare_for_next_receipt` keeps the inventory state
unchanged, clears the image input, the total display and the
comparison display, renders the table from the unchanged state, and
rendering again after the call reproduces the same rows.  It takes no
adapter and no aggregator argument, so it can invoke neither. -/
theorem c9_prepare_frame (inv : List ItemData) :
    (prepare_for_next_receipt inv).state = inv
    ∧ (prepare_for_next_receipt inv).image = Option.none
    ∧ (prepare_for_next_receipt inv).total = ""
    ∧ (prepare_for_next_receipt inv).comparison = ""
    ∧ (prepare_for_next_receipt inv).table = prepareRender inv
    ∧ (prepare_for_next_receipt ((prepare_for_next_receipt inv).state)).table
        = (prepare_for_next_receipt inv).table :=
  ⟨rfl, rfl, rfl, rfl, rfl, rfl⟩

theorem foldOne_preserves (ts : String) (info : LookupResult) (it : ItemData) :
    (foldOne ts info it).item.receipt_timestamp = it.receipt_timestamp
    ∧ (foldOne ts info it).item.name = it.name
    ∧ (foldOne ts info it).item.price_paid = it.price_paid := by
  by_cases hc : info.status = LStatus.found ∧ info.price ≠ Option.none
  · simp [foldOne, hc]
  · cases hq : parse_price (it.price_paid.getD (PyVal.str "N/A")) <;> simp [foldOne, hc, hq]

theorem runItems_timestamps (lookup : String → Except String LookupResult) (ts : String) :
    ∀ xs out tot rows, runItems lookup ts xs = Except.ok (out, tot, rows) →
      out.map (fun it => it.receipt_timestamp) = xs.map (fun it => it.receipt_timestamp) := by
  intro xs
  induction xs with
  | nil =>
    intro out tot rows h
    simp [runItems] at h
    simp [h.1]
  | cons it rest ih =>
    intro out tot rows h
    cases hL : lookup (it.name.getD "Unknown Item") with
    | error e => rw [runItems.eq_def] at h; simp [hL] at h
    | ok info =>
      cases hR : runItems lookup ts rest with
      | error e => rw [runItems.eq_def] at h; simp [hL, hR] at h
      | ok tri =>
        obtain ⟨rest2, t, rs⟩ := tri
        rw [runItems.eq_def] at h
        simp [hL, hR] at h
        obtain ⟨h1, -, -⟩ := h
        rw [← h1]
        simp [List.map_cons, (foldOne_preserves ts info it).1, ih rest2 t rs hR]

theorem processBody_state (ts : String) (extract : Except String (List ItemData × String))
    (lookup : String → Except String LookupResult) (inv : List ItemData) (o : ProcessOut)
    (h : processBody ts extract lookup inv = Except.ok o) :
    o.state = inv ∨ ∃ newItems total out tot rows,
      extract = Except.ok (newItems, total)
      ∧ runItems lookup ts (tagBatch ts newItems) = Except.ok (out, tot, rows)
      ∧ o.state = inv ++ out := by
  cases extract with
  | error e => simp [processBody] at h
  | ok pr =>
    obtain ⟨newItems, total⟩ := pr
    rw [processBody.eq_def] at h
    by_cases h1 : newItems.isEmpty && containsSubB "Error:" total
    · simp [h1] at h
      rw [← h]
      exact Or.inl rfl
    · by_cases h2 : newItems.isEmpty
      · have hc : containsSubB "Error:" total = false := by
          simpa [h2] using h1
        simp [h1, h2, hc] at h
        rw [← h]
        exact Or.inl rfl
      · cases hR : runItems lookup ts (tagBatch ts newItems) with
        | error e => simp [h1, h2, hR] at h
        | ok tri =>
          obtain ⟨items2, cur, curRows⟩ := tri
          simp [h1, h2, hR] at h
          refine Or.inr ⟨newItems, total, items2, cur, curRows, rfl, hR, ?_⟩
          rw [← h]

/-- The invariant of claim C8: every inventory item carries a
non-empty batch identifier. -/
def batchIdOk (inv : List ItemData) : Prop :=
  ∀ it ∈ inv, ∃ s, it.receipt_timestamp = some s ∧ s ≠ ""

/-- Claim C8: every operation preserves the non-empty-batch-identifier
invariant.  `process_receipt` tags every appended item with the fresh
batch timestamp `ts` (assumed non-empty, as `datetime.now().isoformat()`
always is) before it is added; every error path returns the inventory
unchanged; `clear_inventory` returns the empty inventory; and
`prepare_for_next_receipt` returns the inventory unchanged. -/
theorem c8_batch_invariant (hasImage : Bool) (ts : String)
    (extract : Except String (List ItemData × String))
    (lookup : String → Except String LookupResult) (inv : List ItemData)
    (hts : ts ≠ "") (hinv : batchIdOk inv) :
    batchIdOk (process_receipt hasImage ts extract lookup inv).state
    ∧ batchIdOk clear_inventory.state
    ∧ batchIdOk (prepare_for_next_receipt inv).state := by
  refine ⟨?_, fun it hit => absurd hit (List.not_mem_nil it), hinv⟩
  cases hasImage with
  | false => exact hinv
  | true =>
    unfold process_receipt
    cases hb : processBody ts extract lookup inv with
    | error e => simpa using hinv
    | ok o =>
      simp only [Bool.not_true, Bool.false_eq_true, if_false]
      rcases processBody_state ts extract lookup inv o hb with hst |
        ⟨newItems, total, out, tot, rows, hex, hrun, hst⟩
      · rw [hst]
        exact hinv
      · rw [hst]
        intro it hit
        rcases List.mem_append.mp hit with hiv | hout
        · exact hinv it hiv
        · have hmapEq := runItems_timestamps lookup ts _ _ _ _ hrun
          have hmem2 : it.receipt_timestamp
              ∈ (tagBatch ts newItems).map (fun x => x.receipt_timestamp) := by
            rw [← hmapEq]
            exact List.mem_map_of_mem _ hout
          have htb : (tagBatch ts newItems).map (fun x => x.receipt_timestamp)
              = newItems.map (fun _ => some ts) := by
            simp [tagBatch, List.map_map, Function.comp_def]
          rw [htb] at hmem2
          obtain ⟨y, -, hEq⟩ := List.mem_map.mp hmem2
          exact ⟨ts, hEq.symm, hts⟩

/-- Witness for claim C8: one concrete run of each operation. -/
theorem c8_witness :
    batchIdOk ((process_receipt true "2024-01-01T10:00:00"
        (Except.ok ([{ name := some "Milk", price_paid := some (PyVal.str "$4.00") }], "$4.00"))
        (fun _ => Except.ok ⟨LStatus.found, some (7 / 2), some "$3.50 at Walmart", Option.none⟩)
        []).state)
    ∧ batchIdOk clear_inventory.state
    ∧ batchIdOk ((prepare_for_next_receipt []).state) :=
  c8_batch_invariant true "2024-01-01T10:00:00"
    (Except.ok ([{ name := some "Milk", price_paid := some (PyVal.str "$4.00") }], "$4.00"))
    (fun _ => Except.ok ⟨LStatus.found, some (7 / 2), some "$3.50 at Walmart", Option.none⟩)
    [] (by decide) (fun it hit => absurd hit (List.not_mem_nil it))

theorem startsWithL_self_append (n t : List Char) : startsWithL n (n ++ t) = true := by
  induction n with
  | nil => rfl
  | cons c rest ih => simp [startsWithL, ih]

theorem startsWithL_extend (n : List Char) :
    ∀ hay b, startsWithL n hay = true → startsWithL n (hay ++ b) = true := by
  induction n with
  | nil => intro hay b _; rfl
  | cons c rest ih =>
    intro hay b h
    cases hay with
    | nil => simp [startsWithL] at h
    | cons d hs =>
      simp [startsWithL] at h ⊢
      exact ⟨h.1, ih hs b h.2⟩

theorem containsSubL_nil_needle (hay : List Char) : containsSubL [] hay = true := by
  cases hay with
  | nil => rfl
  | cons c rest => simp [containsSubL, startsWithL]

theorem containsSubL_of_startsWith (n hay : List Char) (h : startsWithL n hay = true) :
    containsSubL n hay = true := by
  cases hay with
  | nil =>
    cases n with
    | nil => rfl
    | cons c rest => simp [startsWithL] at h
  | cons c rest => simp [containsSubL, h]

theorem containsSubL_append_right (n a b : List Char) (h : containsSubL n b = true) :
    containsSubL n (a ++ b) = true := by
  induction a with
  | nil => simpa
  | cons c rest ih => simp [containsSubL, ih]

theorem containsSubL_append_left (n a b : List Char) (h : containsSubL n a = true) :
    containsSubL n (a ++ b) = true := by
  induction a with
  | nil =>
    cases n with
    | nil => exact containsSubL_nil_needle b
    | cons c rest => simp [containsSubL] at h
  | cons c rest ih =>
    simp [containsSubL] at h ⊢
    rcases h with h | h
    · exact Or.inl (startsWithL_extend n (c :: rest) b h)
    · exact Or.inr (ih h)

theorem containsSubB_right (needle a b : String) (h : containsSubB needle b = true) :
    containsSubB needle (a ++ b) = true := by
  unfold containsSubB at *
  exact containsSubL_append_right _ _ _ h

theorem containsSubB_left (needle a b : String) (h : containsSubB needle a = true) :
    containsSubB needle (a ++ b) = true := by
  unfold containsSubB at *
  exact containsSubL_append_left _ _ _ h

theorem containsSubB_self_pre (needle t : String) :
    containsSubB needle (needle ++ t) = true := by
  unfold containsSubB
  exact containsSubL_of_startsWith _ _ (startsWithL_self_append _ _)

theorem cumulativeSection_contains (nAll : Nat) (ap ao : ℚ) (af aa : Nat) :
    containsSubB "All Receipts (Cumulative)" (cumulativeSectionHtml nAll ap ao af aa)
      = true := by
  unfold cumulativeSectionHtml
  apply containsSubB_right
  apply containsSubB_right
  exact containsSubB_self_pre _ _

/-- Claim C7 (amended): the Summary Formatter appends the all-receipts
block exactly when the cumulative item count strictly exceeds the
current batch's or the cumulative and current paid totals differ by
more than the 0.01 tolerance (utils.py line 68) — not whenever they
merely differ — and it labels each signed difference by strict sign
comparison: "cheaper online" when paid minus online is strictly
positive, "cheaper in store" when strictly negative, "same price"
exactly at zero. -/
theorem c7_formatter (ci : List ResultRow) (ctotStr : String) (cp co : ℚ) (cf ca : Nat)
    (ai : List ResultRow) (ap ao : ℚ) (af aa : Nat) :
    ((ci.length < ai.length ∨ (1 : ℚ) / 100 < |ap - cp|) →
      containsSubB "All Receipts (Cumulative)"
        (format_comparison_summary ci ctotStr cp co cf ca ai ap ao af aa) = true)
    ∧ (¬(ci.length < ai.length ∨ (1 : ℚ) / 100 < |ap - cp|) →
      format_comparison_summary ci ctotStr cp co cf ca ai ap ao af aa
        = formatNoCumulative ci cp co cf ca)
    ∧ (∀ d : ℚ, (0 < d → diffStatus d = "cheaper online")
        ∧ (d < 0 → diffStatus d = "cheaper in store")
        ∧ (d = 0 → diffStatus d = "same price")) := by
  refine ⟨?_, ?_, ?_⟩
  · intro hcond
    unfold format_comparison_summary
    rw [if_pos hcond]
    apply containsSubB_left
    apply containsSubB_left
    apply containsSubB_right
    exact cumulativeSection_contains _ _ _ _ _
  · intro hcond
    unfold format_comparison_summary formatNoCumulative
    rw [if_neg hcond]
  · intro d
    refine ⟨?_, ?_, ?_⟩
    · intro h
      simp [diffStatus, h]
    · intro h
      simp [diffStatus, lt_asymm h, h]
    · intro h
      simp [diffStatus, h]

set_option maxRecDepth 100000 in
/-- Counterexample to claim C7 as frozen: with equal item counts, a
cumulative paid total of 10.005 differs from the current batch's 10,
yet the all-receipts block is not rendered — the 0.01 tolerance
swallows the difference. -/
theorem c7_counterexample :
    ((2001 : ℚ) / 200 ≠ 10)
    ∧ containsSubB "All Receipts (Cumulative)"
        (format_comparison_summary [] "N/A" 10 0 0 0 [] (2001 / 200) 0 0 0) = false := by
  constructor
  · norm_num
  · rfl

/-- Witness for the amended claim C7: the block appears when the paid
totals differ by more than 0.01, the no-block rendering is produced
when they agree, and a negative difference is labelled "cheaper in
store". -/
theorem c7_witness :
    containsSubB "All Receipts (Cumulative)"
        (format_comparison_summary [] "N/A" 10 0 0 0 [] 20 0 0 0) = true
    ∧ format_comparison_summary [] "N/A" 10 (21 / 2) 1 0 [] 10 (21 / 2) 1 0
        = formatNoCumulative [] 10 (21 / 2) 1 0
    ∧ diffStatus (-1 / 2) = "cheaper in store" := by
  refine ⟨?_, ?_, ?_⟩
  · exact (c7_formatter [] "N/A" 10 0 0 0 [] 20 0 0 0).1 (Or.inr (by norm_num))
  · exact (c7_formatter [] "N/A" 10 (21 / 2) 1 0 [] 10 (21 / 2) 1 0).2.1 (by norm_num)
  · exact ((c7_formatter [] "N/A" 10 0 0 0 [] 20 0 0 0).2.2 (-1 / 2)).2.1 (by norm_num)

/-- Totals re-derived from stored fields over a list of items, in the
way the cumulative loop accumulates them. -/
def replayTotals : List ItemData → Totals
  | [] => Totals.zero
  | it :: rest =>
    let r := replayOutcome it
    let t := replayTotals rest
    ⟨r.paidAdd + t.paid, r.onlineAdd + t.online,
     r.foundAdd + t.foundCount, r.assumedAdd + t.assumedCount⟩

theorem replay_foldOne (ts : String) (info : LookupResult) (it : ItemData) :
    (replayOutcome (foldOne ts info it).item).paidAdd = (foldOne ts info it).paidAdd
    ∧ (replayOutcome (foldOne ts info it).item).onlineAdd = (foldOne ts info it).onlineAdd
    ∧ (replayOutcome (foldOne ts info it).item).foundAdd = (foldOne ts info it).foundAdd
    ∧ (replayOutcome (foldOne ts info it).item).assumedAdd
        = (foldOne ts info it).assumedAdd := by
  by_cases hc : info.status = LStatus.found ∧ info.price ≠ Option.none
  · obtain ⟨hs, hp⟩ := hc
    cases hpp : info.price with
    | none => exact absurd hpp hp
    | some p => simp [foldOne, replayOutcome, hs, hpp]
  · cases hq : parse_price (it.price_paid.getD (PyVal.str "N/A")) with
    | none => simp [foldOne, replayOutcome, hc, hq]
    | some q => simp [foldOne, replayOutcome, hc, hq]

theorem cumulativeLoop_totals :
    ∀ (l : List ItemData) (t : Totals) (rs : List ResultRow),
      (cumulativeLoop t rs l).1
        = ⟨t.paid + (replayTotals l).paid, t.online + (replayTotals l).online,
           t.foundCount + (replayTotals l).foundCount,
           t.assumedCount + (replayTotals l).assumedCount⟩ := by
  intro l
  induction l with
  | nil =>
    intro t rs
    cases t
    simp [cumulativeLoop, replayTotals, Totals.zero]
  | cons it rest ih =>
    intro t rs
    rw [cumulativeLoop.eq_def]
    simp only []
    rw [ih]
    simp [replayTotals, Totals.mk.injEq]
    refine ⟨by ring, by ring, by omega, by omega⟩

theorem runItems_totals (lookup : String → Except String LookupResult) (ts : String) :
    ∀ xs out tot rows, runItems lookup ts xs = Except.ok (out, tot, rows) →
      replayTotals out = tot := by
  intro xs
  induction xs with
  | nil =>
    intro out tot rows h
    simp [runItems] at h
    rw [h.1, ← h.2.1]
    rfl
  | cons it rest ih =>
    intro out tot rows h
    cases hL : lookup (it.name.getD "Unknown Item") with
    | error e => rw [runItems.eq_def] at h; simp [hL] at h
    | ok info =>
      cases hR : runItems lookup ts rest with
      | error e => rw [runItems.eq_def] at h; simp [hL, hR] at h
      | ok tri =>
        obtain ⟨rest2, t, rs⟩ := tri
        rw [runItems.eq_def] at h
        simp [hL, hR] at h
        obtain ⟨h1, h2, -⟩ := h
        rw [← h1, ← h2]
        simp [replayTotals, (replay_foldOne ts info it).1, (replay_foldOne ts info it).2.1,
          (replay_foldOne ts info it).2.2.1, (replay_foldOne ts info it).2.2.2,
          ih rest2 t rs hR]

theorem runItems_congr (lookup lookup2 : String → Except String LookupResult) (ts : String) :
    ∀ xs, (∀ it ∈ xs, lookup2 (it.name.getD "Unknown Item")
        = lookup (it.name.getD "Unknown Item")) →
      runItems lookup2 ts xs = runItems lookup ts xs := by
  intro xs
  induction xs with
  | nil => intro _; rfl
  | cons it rest ih =>
    intro h
    rw [runItems.eq_def]
    conv_rhs => rw [runItems.eq_def]
    dsimp only
    rw [h it (List.mem_cons_self _ _), ih (fun x hx => h x (List.mem_cons_of_mem _ hx))]

theorem runItems_tag_timestamps (lookup : String → Except String LookupResult) (ts : String)
    (items out : List ItemData) (tot : Totals) (rows : List ResultRow)
    (h : runItems lookup ts (tagBatch ts items) = Except.ok (out, tot, rows)) :
    ∀ it ∈ out, it.receipt_timestamp = some ts := by
  intro it hout
  have hmapEq := runItems_timestamps lookup ts _ _ _ _ h
  have hmem2 : it.receipt_timestamp
      ∈ (tagBatch ts items).map (fun x => x.receipt_timestamp) := by
    rw [← hmapEq]
    exact List.mem_map_of_mem _ hout
  have htb : (tagBatch ts items).map (fun x => x.receipt_timestamp)
      = items.map (fun _ => some ts) := by
    simp [tagBatch, List.map_map, Function.comp_def]
  rw [htb] at hmem2
  obtain ⟨y, -, hEq⟩ := List.mem_map.mp hmem2
  exact hEq.symm

/-- Claim C2: processing receipt R1 from the empty inventory and then
receipt R2 gives cumulative paid/online totals equal to the sum of the
two batches' own totals, and the cumulative step re-derives R1's
contributions from the stored `onlinePrice`/`isAssumedPrice` fields:
the lookup adapter is consulted only on the current batch's item
names, so any oracle that agrees with `L2` on R2's item names yields
the identical result, no matter what it would answer for the stored
R1 items.  `runItems L ts (tagBatch ts items) = ok (out, tot, rows)`
says that R\_i's per-item pass produced the folded items `out`, the
batch totals `tot` and the display rows `rows`. -/
theorem c2_additivity (ts1 ts2 t1 t2 : String)
    (L1 L2 L2' : String → Except String LookupResult)
    (items1 items2 out1 out2 : List ItemData) (tot1 tot2 : Totals)
    (rows1 rows2 : List ResultRow)
    (hne : ts1 ≠ ts2)
    (h1 : runItems L1 ts1 (tagBatch ts1 items1) = Except.ok (out1, tot1, rows1))
    (h2 : runItems L2 ts2 (tagBatch ts2 items2) = Except.ok (out2, tot2, rows2))
    (hi1 : items1 ≠ []) (hi2 : items2 ≠ [])
    (hagree : ∀ it ∈ items2,
      L2' (it.name.getD "Unknown Item") = L2 (it.name.getD "Unknown Item")) :
    (process_receipt true ts1 (Except.ok (items1, t1)) L1 []).state = out1
    ∧ (process_receipt true ts2 (Except.ok (items2, t2)) L2 out1).state = out1 ++ out2
    ∧ (allAggregates ts2 tot2 rows2 out1).1.paid = tot1.paid + tot2.paid
    ∧ (allAggregates ts2 tot2 rows2 out1).1.online = tot1.online + tot2.online
    ∧ (process_receipt true ts2 (Except.ok (items2, t2)) L2 out1).summary
        = format_comparison_summary rows2 t2 tot2.paid tot2.online tot2.foundCount
            tot2.assumedCount (allAggregates ts2 tot2 rows2 out1).2
            (allAggregates ts2 tot2 rows2 out1).1.paid
            (allAggregates ts2 tot2 rows2 out1).1.online
            (allAggregates ts2 tot2 rows2 out1).1.foundCount
            (allAggregates ts2 tot2 rows2 out1).1.assumedCount
    ∧ process_receipt true ts2 (Except.ok (items2, t2)) L2' out1
        = process_receipt true ts2 (Except.ok (items2, t2)) L2 out1 := by
  have he1 : items1.isEmpty = false := by
    cases items1 with
    | nil => exact absurd rfl hi1
    | cons a b => rfl
  have he2 : items2.isEmpty = false := by
    cases items2 with
    | nil => exact absurd rfl hi2
    | cons a b => rfl
  have hout1ne : out1 ≠ [] := by
    intro hnil
    have hmapEq := runItems_timestamps L1 ts1 _ _ _ _ h1
    rw [hnil] at hmapEq
    cases items1 with
    | nil => exact hi1 rfl
    | cons a b => simp [tagBatch] at hmapEq
  have he3 : out1.isEmpty = false := by
    cases out1 with
    | nil => exact absurd rfl hout1ne
    | cons a b => rfl
  have hfilter : out1.filter (fun it => it.receipt_timestamp.getD "" != ts2) = out1 := by
    apply List.filter_eq_self.mpr
    intro it hit
    rw [runItems_tag_timestamps L1 ts1 items1 out1 tot1 rows1 h1 it hit]
    simpa [bne_iff_ne] using hne
  have hRT : replayTotals out1 = tot1 := runItems_totals L1 ts1 _ _ _ _ h1
  have hagg : (allAggregates ts2 tot2 rows2 out1).1
      = ⟨tot2.paid + tot1.paid, tot2.online + tot1.online,
         tot2.foundCount + tot1.foundCount, tot2.assumedCount + tot1.assumedCount⟩ := by
    unfold allAggregates
    rw [he3]
    simp only [Bool.false_eq_true, if_false, hfilter, cumulativeLoop_totals, hRT]
  refine ⟨?_, ?_, ?_, ?_, ?_, ?_⟩
  · simp [process_receipt, processBody, he1, h1]
  · simp [process_receipt, processBody, he2, h2]
  · rw [hagg]
    exact add_comm _ _
  · rw [hagg]
    exact add_comm _ _
  · simp [process_receipt, processBody, he2, h2]
  · have hagree2 : ∀ it ∈ tagBatch ts2 items2,
        L2' (it.name.getD "Unknown Item") = L2 (it.name.getD "Unknown Item") := by
      intro it hit
      obtain ⟨y, hy, hEq⟩ := List.mem_map.mp hit
      rw [← hEq]
      exact hagree y hy
    have hcongr := runItems_congr L2 L2' ts2 (tagBatch ts2 items2) hagree2
    simp only [process_receipt, processBody, hcongr]

/-- Witness for claim C2: the spec's two-receipt scenario — Milk $4.00
found online at $3.50, then Bread $2.00 whose lookup errors; the
cumulative totals are 4+2 paid and 3.5+2 online. -/
theorem c2_witness :
    (allAggregates "B" ⟨2, 2, 0, 1⟩
        [⟨"Bread", PyVal.str "$2.00", "Assumed same as receipt ($2.00)", Option.none, "B"⟩]
        [⟨some "Milk", some (PyVal.str "$4.00"), Option.none, some "A", some (7 / 2), false,
            some "$3.50 at Walmart", Option.none⟩]).1.paid = 4 + 2
    ∧ (allAggregates "B" ⟨2, 2, 0, 1⟩
        [⟨"Bread", PyVal.str "$2.00", "Assumed same as receipt ($2.00)", Option.none, "B"⟩]
        [⟨some "Milk", some (PyVal.str "$4.00"), Option.none, some "A", some (7 / 2), false,
            some "$3.50 at Walmart", Option.none⟩]).1.online = 7 / 2 + 2
    ∧ (process_receipt true "A"
        (Except.ok ([{ name := some "Milk", price_paid := some (PyVal.str "$4.00") }], "$4.00"))
        (fun _ => Except.ok ⟨LStatus.found, some (7 / 2), some "$3.50 at Walmart", Option.none⟩)
        []).state
      = [⟨some "Milk", some (PyVal.str "$4.00"), Option.none, some "A", some (7 / 2), false,
          some "$3.50 at Walmart", Option.none⟩] := by
  have h := c2_additivity "A" "B" "$4.00" "$2.00"
    (fun _ => Except.ok ⟨LStatus.found, some (7 / 2), some "$3.50 at Walmart", Option.none⟩)
    (fun _ => Except.ok ⟨LStatus.error, Option.none, some "err", Option.none⟩)
    (fun _ => Except.ok ⟨LStatus.error, Option.none, some "err", Option.none⟩)
    [{ name := some "Milk", price_paid := some (PyVal.str "$4.00") }]
    [{ name := some "Bread", price_paid := some (PyVal.str "$2.00") }]
    [⟨some "Milk", some (PyVal.str "$4.00"), Option.none, some "A", some (7 / 2), false,
        some "$3.50 at Walmart", Option.none⟩]
    [⟨some "Bread", some (PyVal.str "$2.00"), Option.none, some "B", some 2, true,
        some "Assumed same as receipt ($2.00)", Option.none⟩]
    ⟨4, 7 / 2, 1, 0⟩ ⟨2, 2, 0, 1⟩
    [⟨"Milk", PyVal.str "$4.00", "$3.50 at Walmart", Option.none, "A"⟩]
    [⟨"Bread", PyVal.str "$2.00", "Assumed same as receipt ($2.00)", Option.none, "B"⟩]
    (by decide) (by rfl) (by rfl) (by simp) (by simp) (fun _ _ => rfl)
  exact ⟨h.2.2.1, h.2.2.2.1, h.1⟩
